import Mathlib

set_option autoImplicit false

/-!
Shallow embedding of the persistence-and-aggregation core of the counter
service in src/main.go: the schema migration (`Deps.Migrate`), the event
write path (`Deps.Add`), the background aggregation (`Deps.CreateAggregate`)
and the read path (`Deps.List`).

Database effects are modelled by explicit state passing over a `Store`
holding the two SQLite tables (`counter` and `counter_aggregate`) as row
lists.  Every fallible database step (connection acquisition, transaction
begin, statement execution, row scan, commit) is driven by an explicit
fault record: `none` means the step succeeds, `some msg` means the step
fails with error text `msg`.  Timestamps are Unix seconds (`Nat`) and the
process timezone is fixed to UTC.  Transactions run under serializable
isolation, so in the concurrency model (`stepOp` / `run`) each committed
transaction is one atomic step at its serialization point, and the wall
clock advances by one unit per step.

Each operation also returns a `Ledger` recording, for the exit path
actually taken, whether the dedicated connection was balanced (released
whenever it was acquired) and whether a begun transaction was resolved
(a Commit or Rollback call was issued before the function returned).
-/

/-- One row of the `counter` table:
`count INTEGER NOT NULL, created_at DATETIME NOT NULL` (src/main.go:360). -/
structure Event where
  count : Int
  created_at : Nat
  deriving Repr, DecidableEq

/-- One row of the `counter_aggregate` table:
`counts INTEGER NOT NULL, created_at DATETIME NOT NULL` (src/main.go:375). -/
structure Snapshot where
  counts : Int
  created_at : Nat
  deriving Repr, DecidableEq

/-- Column list (name and SQL type) of a created table; every column of both
tables in src/main.go is NOT NULL, so nullability is not tracked. -/
structure TableDef where
  columns : List (String × String)
  deriving Repr, DecidableEq

/-- The persistent SQLite database: the two table definitions (present or
absent) and their rows. -/
structure Store where
  counterTable : Option TableDef
  counterAggregateTable : Option TableDef
  events : List Event
  snapshots : List Snapshot
  deriving Repr, DecidableEq

/-- Columns of `CREATE TABLE IF NOT EXISTS counter` (src/main.go:360). -/
def counterDef : TableDef := ⟨[("count", "INTEGER"), ("created_at", "DATETIME")]⟩

/-- Columns of `CREATE TABLE IF NOT EXISTS counter_aggregate` (src/main.go:375). -/
def counterAggregateDef : TableDef := ⟨[("counts", "INTEGER"), ("created_at", "DATETIME")]⟩

/-- `CREATE TABLE IF NOT EXISTS`: keeps an existing table untouched, creates
it with the given columns otherwise. -/
def createTableIfNotExists (t : Option TableDef) (d : TableDef) : Option TableDef :=
  some (t.getD d)

/-- An HTTP response as written by the handlers: status code, Content-Type
header, body text. -/
structure Response where
  status : Nat
  contentType : String
  body : String
  deriving Repr, DecidableEq

/-- Resource accounting for one exit path of one operation.
`connBalanced`: the dedicated connection was released whenever it was
acquired (the deferred Close ran, or acquisition itself failed).
`txBegun`: BeginTx succeeded on this path.
`txResolved`: a Commit or Rollback call was issued on the transaction
before the operation returned. -/
structure Ledger where
  connBalanced : Bool
  txBegun : Bool
  txResolved : Bool
  deriving Repr, DecidableEq

/-- Model of strconv.Quote as used for error bodies, for printable ASCII
error text: wraps in double quotes, escaping backslash and double quote. -/
def goQuoteChar (c : Char) : String :=
  if c = '"' then "\\\"" else if c = '\\' then "\\\\" else String.singleton c

/-- strconv.Quote on an error message (printable ASCII fragment). -/
def goQuote (s : String) : String :=
  "\"" ++ String.join (s.data.map goQuoteChar) ++ "\""

/-- Body of every 500 response: `{"error":` ++ strconv.Quote(err) ++ `}`. -/
def errBody (msg : String) : String := "\x7b\"error\":" ++ goQuote msg ++ "\x7d"

/-- The 500 application/json response built on every handler error path. -/
def errorResponse (msg : String) : Response := ⟨500, "application/json", errBody msg⟩

/-- Body of the successful `POST /api/add` response (src/main.go:455). -/
def successBody : String := "\x7b\"message\":\"success\"\x7d"

/-- Body of the successful `GET /api/list` response: json.Marshal of a map
with keys `counter` and `lastDate`; Go marshals map keys in sorted order,
so `counter` precedes `lastDate`. -/
def listBody (counter : Int) (lastDate : String) : String :=
  "\x7b\"counter\":" ++ toString counter ++ ",\"lastDate\":\"" ++ lastDate ++ "\"\x7d"

/-- Gregorian leap-year test. -/
def isLeap (y : Nat) : Bool := (y % 4 == 0 && y % 100 != 0) || y % 400 == 0

/-- Number of days in year `y`. -/
def daysInYear (y : Nat) : Nat := if isLeap y then 366 else 365

/-- Month lengths of year `y`, January first. -/
def monthLengths (y : Nat) : List Nat :=
  [31, if isLeap y then 29 else 28, 31, 30, 31, 30, 31, 31, 30, 31, 30, 31]

/-- Fuel-driven conversion of a day count since 1970-01-01 into a year and
a zero-based day offset inside that year. -/
def resolveYearAux : Nat → Nat → Nat → Nat × Nat
  | 0, y, d => (y, d)
  | fuel + 1, y, d =>
    if d < daysInYear y then (y, d) else resolveYearAux fuel (y + 1) (d - daysInYear y)

/-- Conversion of a zero-based day offset inside a year into a month number
(1-12) and a zero-based day offset inside that month. -/
def resolveMonthAux : List Nat → Nat → Nat → Nat × Nat
  | [], m, d => (m, d)
  | len :: rest, m, d =>
    if d < len then (m, d) else resolveMonthAux rest (m + 1) (d - len)

/-- Two-digit zero padding. -/
def pad2 (n : Nat) : String := if n < 10 then "0" ++ toString n else toString n

/-- time.RFC3339 rendering of a Unix-seconds timestamp with the process
timezone fixed to UTC, as the Go formatter produces for such times. -/
def rfc3339 (t : Nat) : String :=
  let days := t / 86400
  let secs := t % 86400
  let yd := resolveYearAux (days + 1) 1970 days
  let md := resolveMonthAux (monthLengths yd.1) 1 yd.2
  toString yd.1 ++ "-" ++ pad2 md.1 ++ "-" ++ pad2 (md.2 + 1) ++ "T" ++
    pad2 (secs / 3600) ++ ":" ++ pad2 (secs % 3600 / 60) ++ ":" ++ pad2 (secs % 60) ++ "Z"

/-- Fault injection for `Deps.Migrate`: one slot per fallible database step
of src/main.go:342-393.  `rollbackErr` is consulted on the statement-failure
paths, where the code returns the Rollback error instead when Rollback
itself fails. -/
structure MigrateFaults where
  connErr : Option String
  beginErr : Option String
  createCounterErr : Option String
  createAggregateErr : Option String
  rollbackErr : Option String
  commitErr : Option String
  deriving Repr, DecidableEq

/-- All migration steps succeed. -/
def noMigrateFaults : MigrateFaults := ⟨none, none, none, none, none, none⟩

/-- Return value of `Deps.Migrate`: the Go error, the resulting store, and
the resource ledger of the exit path taken. -/
structure MigrateResult where
  err : Option String
  store : Store
  ledger : Ledger
  deriving Repr, DecidableEq

/-- Migrate (src/main.go:342-393): inside one serializable read-write
transaction, `CREATE TABLE IF NOT EXISTS counter` then
`CREATE TABLE IF NOT EXISTS counter_aggregate`; any statement failure rolls
back (returning the Rollback error if Rollback also fails) and no statement
effect survives an uncommitted transaction. -/
def Deps.Migrate (f : MigrateFaults) (s : Store) : MigrateResult :=
  match f.connErr with
  | some e => ⟨some e, s, ⟨true, false, false⟩⟩
  | none =>
  match f.beginErr with
  | some e => ⟨some e, s, ⟨true, false, false⟩⟩
  | none =>
  match f.createCounterErr with
  | some e =>
    match f.rollbackErr with
    | some e2 => ⟨some e2, s, ⟨true, true, true⟩⟩
    | none => ⟨some e, s, ⟨true, true, true⟩⟩
  | none =>
  match f.createAggregateErr with
  | some e =>
    match f.rollbackErr with
    | some e2 => ⟨some e2, s, ⟨true, true, true⟩⟩
    | none => ⟨some e, s, ⟨true, true, true⟩⟩
  | none =>
  match f.commitErr with
  | some e => ⟨some e, s, ⟨true, true, true⟩⟩
  | none =>
    ⟨none,
     { s with
        counterTable := createTableIfNotExists s.counterTable counterDef,
        counterAggregateTable :=
          createTableIfNotExists s.counterAggregateTable counterAggregateDef },
     ⟨true, true, true⟩⟩

/-- Fault injection for `Deps.Add` (src/main.go:395-456).  A Rollback
failure on the insert-failure and commit-failure paths changes neither the
response (both branches quote the primary error) nor the store, so it has
no observable slot here. -/
structure AddFaults where
  connErr : Option String
  beginErr : Option String
  insertErr : Option String
  commitErr : Option String
  deriving Repr, DecidableEq

/-- All steps of the write path succeed. -/
def noAddFaults : AddFaults := ⟨none, none, none, none⟩

/-- Return value of `Deps.Add`: the HTTP response written, the resulting
store, whether `go d.CreateAggregate()` was spawned, and the ledger. -/
structure AddResult where
  response : Response
  store : Store
  triggeredAggregate : Bool
  ledger : Ledger
  deriving Repr, DecidableEq

/-- Add (src/main.go:395-456): inside a dedicated connection and a
serializable read-write transaction, `INSERT INTO counter (count,
created_at) VALUES (1, now)`; every failure answers 500 with the error
quoted and leaves the store unchanged; a successful commit spawns the
aggregator and answers 200. -/
def Deps.Add (f : AddFaults) (s : Store) (now : Nat) : AddResult :=
  match f.connErr with
  | some e => ⟨errorResponse e, s, false, ⟨true, false, false⟩⟩
  | none =>
  match f.beginErr with
  | some e => ⟨errorResponse e, s, false, ⟨true, false, false⟩⟩
  | none =>
  match f.insertErr with
  | some e => ⟨errorResponse e, s, false, ⟨true, true, true⟩⟩
  | none =>
  match f.commitErr with
  | some e => ⟨errorResponse e, s, false, ⟨true, true, true⟩⟩
  | none =>
    ⟨⟨200, "application/json", successBody⟩,
     { s with events := s.events ++ [⟨1, now⟩] },
     true,
     ⟨true, true, true⟩⟩

/-- Fault injection for `Deps.CreateAggregate` (src/main.go:525-600).  A
Rollback failure on the insert-failure path changes nothing observable (the
code logs the insert error and returns either way), so it has no slot. -/
structure AggregateFaults where
  connErr : Option String
  beginErr : Option String
  queryErr : Option String
  scanErr : Option String
  insertErr : Option String
  commitErr : Option String
  deriving Repr, DecidableEq

/-- All aggregation steps succeed. -/
def noAggregateFaults : AggregateFaults := ⟨none, none, none, none, none, none⟩

/-- Return value of `Deps.CreateAggregate`: the resulting store, the lines
written to the log, and the ledger.  There is no response and no returned
error: the operation has no caller to report to. -/
structure AggregateResult where
  store : Store
  logged : List String
  ledger : Ledger
  deriving Repr, DecidableEq

/-- Running total of `SELECT count FROM counter`, accumulated row by row
exactly as the scan loop at src/main.go:562-572 does. -/
def sumCounts (events : List Event) : Int :=
  events.foldl (fun acc e => acc + e.count) 0

/-- CreateAggregate (src/main.go:525-600): inside a dedicated connection
and serializable read-write transaction, scan every `counter` row summing
`count`, insert one `counter_aggregate` row with that sum and the current
time, commit.  Every error is only logged and leaves the store unchanged.
On the query-failure and scan-failure paths the code returns without
calling Commit or Rollback, so the ledger reports the transaction
unresolved there. -/
def Deps.CreateAggregate (g : AggregateFaults) (s : Store) (now : Nat) : AggregateResult :=
  match g.connErr with
  | some e => ⟨s, [e], ⟨true, false, false⟩⟩
  | none =>
  match g.beginErr with
  | some e => ⟨s, [e], ⟨true, false, false⟩⟩
  | none =>
  match g.queryErr with
  | some e => ⟨s, [e], ⟨true, true, false⟩⟩
  | none =>
  match g.scanErr with
  | some e => ⟨s, [e], ⟨true, true, false⟩⟩
  | none =>
  match g.insertErr with
  | some e => ⟨s, [e], ⟨true, true, true⟩⟩
  | none =>
  match g.commitErr with
  | some e => ⟨s, [e], ⟨true, true, true⟩⟩
  | none =>
    ⟨{ s with snapshots := s.snapshots ++ [⟨sumCounts s.events, now⟩] },
     ["Aggregate created, with counts: " ++ toString (sumCounts s.events)],
     ⟨true, true, true⟩⟩

/-- One fold step of `ORDER BY created_at DESC LIMIT 1`: keep whichever row
has the later `created_at`; on equal timestamps SQLite returns an
unspecified qualifying row, fixed here to the earlier-scanned one. -/
def pickLater (acc : Option Snapshot) (x : Snapshot) : Option Snapshot :=
  match acc with
  | none => some x
  | some y => if y.created_at < x.created_at then some x else some y

/-- `SELECT counts, created_at FROM counter_aggregate ORDER BY created_at
DESC LIMIT 1` (src/main.go:479): the row with the maximum `created_at`, or
`none` on an empty table (sql.ErrNoRows). -/
def latestSnapshot (l : List Snapshot) : Option Snapshot := l.foldl pickLater none

/-- Fault injection for `Deps.List` (src/main.go:458-523): connection
acquisition failure, and any query failure other than sql.ErrNoRows. -/
structure ListFaults where
  connErr : Option String
  queryErr : Option String
  deriving Repr, DecidableEq

/-- All read-path steps succeed. -/
def noListFaults : ListFaults := ⟨none, none⟩

/-- Return value of `Deps.List`: the HTTP response, the resulting store
(the operation only reads), and the ledger (no transaction is begun). -/
structure ListResult where
  response : Response
  store : Store
  ledger : Ledger
  deriving Repr, DecidableEq

/-- List (src/main.go:458-523): on a dedicated connection, read the latest
aggregate row; sql.ErrNoRows answers 200 with counter 0 and the epoch-zero
sentinel date; a found row answers 200 with its counts and RFC3339
timestamp; any other failure answers 500. -/
def Deps.List (f : ListFaults) (s : Store) : ListResult :=
  match f.connErr with
  | some e => ⟨errorResponse e, s, ⟨true, false, false⟩⟩
  | none =>
  match f.queryErr with
  | some e => ⟨errorResponse e, s, ⟨true, false, false⟩⟩
  | none =>
  match latestSnapshot s.snapshots with
  | none => ⟨⟨200, "application/json", listBody 0 (rfc3339 0)⟩, s, ⟨true, false, false⟩⟩
  | some snap =>
    ⟨⟨200, "application/json", listBody snap.counts (rfc3339 snap.created_at)⟩, s,
     ⟨true, false, false⟩⟩

/-- The handler sequence of src/main.go:395-456: run Add, write its
response, and let the spawned aggregation (if any) run to completion.  The
response component is computed before and independently of the aggregation
outcome, exactly as the handler writes its body after `go
d.CreateAggregate()` without awaiting it. -/
def Deps.addThenAggregate (f : AddFaults) (g : AggregateFaults) (s : Store)
    (tAdd tAgg : Nat) : Response × Store :=
  let r := Deps.Add f s tAdd
  (r.response,
   if r.triggeredAggregate then (Deps.CreateAggregate g r.store tAgg).store else r.store)

/-- Global system state of the concurrency model: the shared store and a
wall clock that advances by one unit per atomic transaction. -/
structure Sys where
  store : Store
  clock : Nat
  deriving Repr, DecidableEq

/-- One atomic serializable transaction of the interleaving model: a write
of the event path (with its faults) or one spawned aggregation run (with
its faults).  Under serializable isolation each committed transaction takes
effect at one serialization point, modelled as one atomic step. -/
inductive Op where
  | record (f : AddFaults)
  | aggregate (g : AggregateFaults)
  deriving Repr, DecidableEq

/-- Execute one atomic transaction and advance the clock. -/
def stepOp (σ : Sys) (op : Op) : Sys :=
  match op with
  | .record f => ⟨(Deps.Add f σ.store σ.clock).store, σ.clock + 1⟩
  | .aggregate g => ⟨(Deps.CreateAggregate g σ.store σ.clock).store, σ.clock + 1⟩

/-- Execute an interleaving of transactions in order. -/
def run (σ : Sys) (ops : List Op) : Sys := ops.foldl stepOp σ

/-- The counter value a `GET /api/list` read reports at this instant: the
counts of the latest snapshot, or 0 when none exists — the value
`Deps.List` serializes into the `counter` field. -/
def readCounter (σ : Sys) : Int :=
  match latestSnapshot σ.store.snapshots with
  | none => 0
  | some snap => snap.counts

/-- A freshly migrated, empty store. -/
def freshStore : Store := ⟨some counterDef, some counterAggregateDef, [], []⟩

/-- The system right after startup migration. -/
def freshSys : Sys := ⟨freshStore, 0⟩

/-- Some step of the write path fails. -/
def addFails (f : AddFaults) : Prop :=
  f.connErr ≠ none ∨ f.beginErr ≠ none ∨ f.insertErr ≠ none ∨ f.commitErr ≠ none

/-- Some step of the aggregation fails. -/
def aggregateFails (g : AggregateFaults) : Prop :=
  g.connErr ≠ none ∨ g.beginErr ≠ none ∨ g.queryErr ≠ none ∨
    g.scanErr ≠ none ∨ g.insertErr ≠ none ∨ g.commitErr ≠ none

/-- The aggregation fault used to exhibit the unresolved-transaction exit
path of `Deps.CreateAggregate`. -/
def aggregateQueryFault : AggregateFaults := ⟨none, none, some "query failed", none, none, none⟩

lemma foldl_pickLater_eq_some (l : List Snapshot) (y : Snapshot) :
    ∃ snap, l.foldl pickLater (some y) = some snap := by
  induction l generalizing y with
  | nil => exact ⟨y, rfl⟩
  | cons x xs ih =>
    show ∃ snap, xs.foldl pickLater (pickLater (some y) x) = some snap
    by_cases hc : y.created_at < x.created_at
    · simpa [pickLater, hc] using ih x
    · simpa [pickLater, hc] using ih y

lemma foldl_pickLater_mem (l : List Snapshot) :
    ∀ (acc : Option Snapshot) (snap : Snapshot),
      l.foldl pickLater acc = some snap → snap ∈ l ∨ acc = some snap := by
  induction l with
  | nil => exact fun acc snap h => Or.inr h
  | cons x xs ih =>
    intro acc snap h
    rcases ih (pickLater acc x) snap h with hmem | hacc
    · exact Or.inl (List.mem_cons_of_mem x hmem)
    · cases acc with
      | none =>
        simp only [pickLater, Option.some.injEq] at hacc
        exact Or.inl (hacc ▸ List.mem_cons_self x xs)
      | some y =>
        by_cases hc : y.created_at < x.created_at
        · simp only [pickLater, hc, if_true, Option.some.injEq] at hacc
          exact Or.inl (hacc ▸ List.mem_cons_self x xs)
        · simp only [pickLater, hc, if_false, Option.some.injEq] at hacc
          exact Or.inr (by rw [hacc])

lemma foldl_pickLater_le (l : List Snapshot) :
    ∀ (acc : Option Snapshot) (snap : Snapshot),
      l.foldl pickLater acc = some snap →
      (∀ x ∈ l, x.created_at ≤ snap.created_at) ∧
        (∀ y, acc = some y → y.created_at ≤ snap.created_at) := by
  induction l with
  | nil =>
    intro acc snap h
    refine ⟨fun x hx => absurd hx (List.not_mem_nil x), fun y hy => ?_⟩
    rw [hy] at h
    cases h
    exact le_refl _
  | cons x xs ih =>
    intro acc snap h
    obtain ⟨hall, hacc⟩ := ih (pickLater acc x) snap h
    have hx : x.created_at ≤ snap.created_at := by
      cases acc with
      | none => exact hacc x rfl
      | some y =>
        by_cases hc : y.created_at < x.created_at
        · exact hacc x (by simp [pickLater, hc])
        · have hy : y.created_at ≤ snap.created_at := hacc y (by simp [pickLater, hc])
          omega
    refine ⟨fun z hz => ?_, fun y hy => ?_⟩
    · rcases List.mem_cons.mp hz with rfl | hz2
      · exact hx
      · exact hall z hz2
    · cases acc with
      | none => cases hy
      | some w =>
        cases hy
        by_cases hc : y.created_at < x.created_at
        · omega
        · exact hacc y (by simp [pickLater, hc])

lemma latestSnapshot_isSome (l : List Snapshot) (h : l ≠ []) :
    ∃ snap, latestSnapshot l = some snap := by
  cases l with
  | nil => exact absurd rfl h
  | cons x xs => exact foldl_pickLater_eq_some xs x

lemma latestSnapshot_mem (l : List Snapshot) (snap : Snapshot)
    (h : latestSnapshot l = some snap) : snap ∈ l := by
  rcases foldl_pickLater_mem l none snap h with hm | hacc
  · exact hm
  · cases hacc

lemma latestSnapshot_max (l : List Snapshot) (snap : Snapshot)
    (h : latestSnapshot l = some snap) : ∀ x ∈ l, x.created_at ≤ snap.created_at :=
  (foldl_pickLater_le l none snap h).1

lemma latestSnapshot_append_last (l : List Snapshot) (x : Snapshot)
    (h : ∀ y ∈ l, y.created_at < x.created_at) :
    latestSnapshot (l ++ [x]) = some x := by
  unfold latestSnapshot
  rw [List.foldl_append]
  show pickLater (List.foldl pickLater none l) x = some x
  cases hl : List.foldl pickLater none l with
  | none => rfl
  | some y =>
    have hy : y ∈ l := latestSnapshot_mem l y hl
    simp [pickLater, h y hy]

lemma foldl_add_count (l : List Event) (init : Int) :
    l.foldl (fun acc e => acc + e.count) init = init + sumCounts l := by
  induction l generalizing init with
  | nil => simp [sumCounts]
  | cons e es ih =>
    simp only [sumCounts, List.foldl_cons] at *
    rw [ih (init + e.count), ih (0 + e.count)]
    ring

lemma sumCounts_append (l1 l2 : List Event) :
    sumCounts (l1 ++ l2) = sumCounts l1 + sumCounts l2 := by
  unfold sumCounts
  rw [List.foldl_append, foldl_add_count]
  rfl

lemma sumCounts_cons (e : Event) (l : List Event) :
    sumCounts (e :: l) = e.count + sumCounts l := by
  show List.foldl _ (0 + e.count) l = _
  rw [foldl_add_count]
  ring

lemma sumCounts_nonneg (l : List Event) (h : ∀ e ∈ l, e.count = 1) :
    0 ≤ sumCounts l := by
  induction l with
  | nil => simp [sumCounts]
  | cons e es ih =>
    rw [sumCounts_cons, h e (List.mem_cons_self e es)]
    have := ih (fun x hx => h x (List.mem_cons_of_mem e hx))
    omega

lemma add_store_cases (f : AddFaults) (s : Store) (t : Nat) :
    (Deps.Add f s t).store = s ∨
      (Deps.Add f s t).store = { s with events := s.events ++ [⟨1, t⟩] } := by
  rcases f with ⟨cf, bf, insf, cmf⟩
  cases cf <;> cases bf <;> cases insf <;> cases cmf <;>
    first | exact Or.inl rfl | exact Or.inr rfl

lemma aggregate_store_cases (g : AggregateFaults) (s : Store) (t : Nat) :
    (Deps.CreateAggregate g s t).store = s ∨
      (Deps.CreateAggregate g s t).store =
        { s with snapshots := s.snapshots ++ [⟨sumCounts s.events, t⟩] } := by
  rcases g with ⟨a, b, c, d, e, f⟩
  cases a <;> cases b <;> cases c <;> cases d <;> cases e <;> cases f <;>
    first | exact Or.inl rfl | exact Or.inr rfl

/-- Reachability invariant of the concurrency model: every recorded event
carries count 1 (the write path always inserts 1), every persisted snapshot
holds a sum no larger than the current event total (events are append-only
with nonnegative counts), and every snapshot timestamp lies strictly in the
past of the clock. -/
def SysInv (σ : Sys) : Prop :=
  (∀ e ∈ σ.store.events, e.count = 1) ∧
    (∀ sn ∈ σ.store.snapshots,
      sn.counts ≤ sumCounts σ.store.events ∧ sn.created_at < σ.clock)

lemma inv_fresh : SysInv freshSys := by
  constructor
  · intro e he
    cases he
  · intro sn hsn
    cases hsn

lemma inv_step (σ : Sys) (op : Op) (h : SysInv σ) :
    SysInv (stepOp σ op) ∧ readCounter σ ≤ readCounter (stepOp σ op) := by
  obtain ⟨hev, hsn⟩ := h
  cases op with
  | record f =>
    have hclock : (stepOp σ (Op.record f)).clock = σ.clock + 1 := rfl
    rcases add_store_cases f σ.store σ.clock with hc | hc
    · have hs : (stepOp σ (Op.record f)).store = σ.store := hc
      refine ⟨⟨?_, ?_⟩, ?_⟩
      · intro e he
        rw [hs] at he
        exact hev e he
      · intro sn h2
        rw [hs] at h2
        rw [hs, hclock]
        obtain ⟨h3, h4⟩ := hsn sn h2
        exact ⟨h3, by omega⟩
      · unfold readCounter
        rw [hs]
    · have hs : (stepOp σ (Op.record f)).store =
          { σ.store with events := σ.store.events ++ [⟨1, σ.clock⟩] } := hc
      have hsum : sumCounts (σ.store.events ++ [⟨1, σ.clock⟩]) =
          sumCounts σ.store.events + 1 := by
        rw [sumCounts_append, sumCounts_cons]
        simp [sumCounts]
      refine ⟨⟨?_, ?_⟩, ?_⟩
      · intro e he
        rw [hs] at he
        simp only [List.mem_append, List.mem_singleton] at he
        rcases he with he | rfl
        · exact hev e he
        · rfl
      · intro sn h2
        rw [hs] at h2
        rw [hs, hclock]
        simp only at h2
        obtain ⟨h3, h4⟩ := hsn sn h2
        simp only [hsum]
        exact ⟨by omega, by omega⟩
      · unfold readCounter
        rw [hs]
  | aggregate g =>
    have hclock : (stepOp σ (Op.aggregate g)).clock = σ.clock + 1 := rfl
    rcases aggregate_store_cases g σ.store σ.clock with hc | hc
    · have hs : (stepOp σ (Op.aggregate g)).store = σ.store := hc
      refine ⟨⟨?_, ?_⟩, ?_⟩
      · intro e he
        rw [hs] at he
        exact hev e he
      · intro sn h2
        rw [hs] at h2
        rw [hs, hclock]
        obtain ⟨h3, h4⟩ := hsn sn h2
        exact ⟨h3, by omega⟩
      · unfold readCounter
        rw [hs]
    · have hs : (stepOp σ (Op.aggregate g)).store =
          { σ.store with
              snapshots := σ.store.snapshots ++ [⟨sumCounts σ.store.events, σ.clock⟩] } := hc
      have hlast : latestSnapshot
          (σ.store.snapshots ++ [⟨sumCounts σ.store.events, σ.clock⟩]) =
          some ⟨sumCounts σ.store.events, σ.clock⟩ :=
        latestSnapshot_append_last _ _ (fun y hy => (hsn y hy).2)
      refine ⟨⟨?_, ?_⟩, ?_⟩
      · intro e he
        rw [hs] at he
        exact hev e he
      · intro sn h2
        rw [hs] at h2
        rw [hs, hclock]
        simp only [List.mem_append, List.mem_singleton] at h2
        rcases h2 with h2 | rfl
        · obtain ⟨h3, h4⟩ := hsn sn h2
          exact ⟨h3, by omega⟩
        · exact ⟨le_refl _, Nat.lt_succ_self _⟩
      · unfold readCounter
        rw [hs]
        simp only [hlast]
        cases hl : latestSnapshot σ.store.snapshots with
        | none => exact sumCounts_nonneg σ.store.events hev
        | some y => exact (hsn y (latestSnapshot_mem _ _ hl)).1

lemma inv_run (σ : Sys) (ops : List Op) (h : SysInv σ) :
    SysInv (run σ ops) ∧ readCounter σ ≤ readCounter (run σ ops) := by
  induction ops generalizing σ with
  | nil => exact ⟨h, le_refl _⟩
  | cons op rest ih =>
    obtain ⟨h1, h2⟩ := inv_step σ op h
    obtain ⟨h3, h4⟩ := ih (stepOp σ op) h1
    exact ⟨h3, le_trans h2 h4⟩

lemma run_records (N : Nat) (σ : Sys) :
    (run σ (List.replicate N (Op.record noAddFaults))).store.snapshots =
      σ.store.snapshots ∧
    sumCounts (run σ (List.replicate N (Op.record noAddFaults))).store.events =
      sumCounts σ.store.events + N ∧
    (run σ (List.replicate N (Op.record noAddFaults))).clock = σ.clock + N := by
  induction N generalizing σ with
  | zero =>
    refine ⟨rfl, ?_, rfl⟩
    simp [run]
  | succ n ih =>
    have hrep : List.replicate (n + 1) (Op.record noAddFaults) =
        Op.record noAddFaults :: List.replicate n (Op.record noAddFaults) := rfl
    have hrun : run σ (List.replicate (n + 1) (Op.record noAddFaults)) =
        run (stepOp σ (Op.record noAddFaults)) (List.replicate n (Op.record noAddFaults)) := by
      rw [hrep]
      rfl
    have hstep : stepOp σ (Op.record noAddFaults) =
        ⟨{ σ.store with events := σ.store.events ++ [⟨1, σ.clock⟩] }, σ.clock + 1⟩ := rfl
    obtain ⟨i1, i2, i3⟩ := ih (stepOp σ (Op.record noAddFaults))
    rw [hrun]
    refine ⟨?_, ?_, ?_⟩
    · rw [i1, hstep]
    · rw [i2, hstep]
      simp only
      rw [sumCounts_append, sumCounts_cons]
      simp [sumCounts]
      ring
    · rw [i3, hstep]
      simp only
      omega

/-- C1: starting from a store with no recorded events, N successful write
transactions followed by one successful aggregation append exactly one
snapshot whose counts equal N (each event contributes count 1 and the
aggregator sums count over every event row). -/
theorem claim_C1_record_then_aggregate_counts (N : Nat) (σ : Sys)
    (h : σ.store.events = []) :
    (run σ (List.replicate N (Op.record noAddFaults) ++
        [Op.aggregate noAggregateFaults])).store.snapshots =
      σ.store.snapshots ++ [⟨(N : Int), σ.clock + N⟩] := by
  have hsplit : run σ (List.replicate N (Op.record noAddFaults) ++
      [Op.aggregate noAggregateFaults]) =
      stepOp (run σ (List.replicate N (Op.record noAddFaults)))
        (Op.aggregate noAggregateFaults) := by
    unfold run
    rw [List.foldl_append]
    rfl
  rw [hsplit]
  obtain ⟨s1, s2, s3⟩ := run_records N σ
  have hagg : (stepOp (run σ (List.replicate N (Op.record noAddFaults)))
      (Op.aggregate noAggregateFaults)).store.snapshots =
      (run σ (List.replicate N (Op.record noAddFaults))).store.snapshots ++
        [⟨sumCounts (run σ (List.replicate N (Op.record noAddFaults))).store.events,
          (run σ (List.replicate N (Op.record noAddFaults))).clock⟩] := rfl
  rw [hagg, s1, s3]
  have hc : sumCounts (run σ (List.replicate N (Op.record noAddFaults))).store.events =
      (N : Int) := by
    rw [s2, h]
    simp [sumCounts]
  rw [hc]

theorem claim_C1_witness :
    (run freshSys (List.replicate 3 (Op.record noAddFaults) ++
        [Op.aggregate noAggregateFaults])).store.snapshots =
      freshSys.store.snapshots ++ [⟨(3 : Int), freshSys.clock + 3⟩] :=
  claim_C1_record_then_aggregate_counts 3 freshSys rfl

/-- C2: on a store with no aggregate snapshot, the read path succeeds with
status 200 and the exact body with counter 0 and the epoch-zero sentinel
date, rather than failing. -/
theorem claim_C2_empty_store_list (s : Store) (h : s.snapshots = []) :
    (Deps.List noListFaults s).response =
      ⟨200, "application/json",
        "\x7b\"counter\":0,\"lastDate\":\"1970-01-01T00:00:00Z\"\x7d"⟩ := by
  have h2 : latestSnapshot s.snapshots = none := by rw [h]; rfl
  simp only [Deps.List, noListFaults, h2]
  decide

theorem claim_C2_witness :
    (Deps.List noListFaults freshStore).response =
      ⟨200, "application/json",
        "\x7b\"counter\":0,\"lastDate\":\"1970-01-01T00:00:00Z\"\x7d"⟩ :=
  claim_C2_empty_store_list freshStore rfl

/-- C3: whenever any step of an aggregation run fails, the run leaves the
whole store unchanged (in particular the snapshot table: no partial
snapshot) and only logs the one error; the result type carries no error
channel back to any caller. -/
theorem claim_C3_aggregate_error_no_partial (g : AggregateFaults) (s : Store)
    (t : Nat) (h : aggregateFails g) :
    (Deps.CreateAggregate g s t).store = s ∧
      (Deps.CreateAggregate g s t).logged.length = 1 := by
  rcases g with ⟨a, b, c, d, e, f⟩
  cases a <;> cases b <;> cases c <;> cases d <;> cases e <;> cases f <;>
    first
      | exact ⟨rfl, rfl⟩
      | (exfalso; simp [aggregateFails] at h)

theorem claim_C3_witness :
    (Deps.CreateAggregate ⟨some "connection refused", none, none, none, none, none⟩
        freshStore 0).store = freshStore ∧
      (Deps.CreateAggregate ⟨some "connection refused", none, none, none, none, none⟩
        freshStore 0).logged.length = 1 :=
  claim_C3_aggregate_error_no_partial
    ⟨some "connection refused", none, none, none, none, none⟩ freshStore 0
    (Or.inl (by simp))

/-- C4: whenever any step of the write path fails, the handler leaves the
store unchanged (no partial write), answers status 500, and any begun
transaction was resolved before returning. -/
theorem claim_C4_add_failure_no_partial (f : AddFaults) (s : Store) (t : Nat)
    (h : addFails f) :
    (Deps.Add f s t).store = s ∧ (Deps.Add f s t).response.status = 500 ∧
      ((Deps.Add f s t).ledger.txBegun = true →
        (Deps.Add f s t).ledger.txResolved = true) := by
  rcases f with ⟨cf, bf, insf, cmf⟩
  cases cf <;> cases bf <;> cases insf <;> cases cmf <;>
    first
      | exact ⟨rfl, rfl, fun h2 => h2⟩
      | exact ⟨rfl, rfl, fun _ => rfl⟩
      | (exfalso; simp [addFails] at h)

theorem claim_C4_witness :
    (Deps.Add ⟨none, none, some "forced abort", none⟩ freshStore 0).store = freshStore ∧
      (Deps.Add ⟨none, none, some "forced abort", none⟩ freshStore 0).response.status = 500 ∧
      ((Deps.Add ⟨none, none, some "forced abort", none⟩ freshStore 0).ledger.txBegun = true →
        (Deps.Add ⟨none, none, some "forced abort", none⟩ freshStore 0).ledger.txResolved = true) :=
  claim_C4_add_failure_no_partial ⟨none, none, some "forced abort", none⟩ freshStore 0
    (Or.inr (Or.inr (Or.inl (by simp))))

/-- C5: once a migration has succeeded, running it again with no
infrastructure fault succeeds and leaves the store — both table
definitions included — completely unchanged. -/
theorem claim_C5_migrate_idempotent (f : MigrateFaults) (s : Store)
    (h : (Deps.Migrate f s).err = none) :
    (Deps.Migrate noMigrateFaults (Deps.Migrate f s).store).err = none ∧
      (Deps.Migrate noMigrateFaults (Deps.Migrate f s).store).store =
        (Deps.Migrate f s).store := by
  rcases f with ⟨cf, bf, c1, c2, rb, cm⟩
  cases cf <;> cases bf <;> cases c1 <;> cases c2 <;> cases rb <;> cases cm <;>
    first
      | exact ⟨rfl, rfl⟩
      | exact Option.noConfusion h

theorem claim_C5_witness :
    (Deps.Migrate noMigrateFaults (Deps.Migrate noMigrateFaults freshStore).store).err = none ∧
      (Deps.Migrate noMigrateFaults (Deps.Migrate noMigrateFaults freshStore).store).store =
        (Deps.Migrate noMigrateFaults freshStore).store :=
  claim_C5_migrate_idempotent noMigrateFaults freshStore rfl

/-- C6: on any store holding at least one snapshot, the read path returns
exactly the row selected by maximum created_at: that row belongs to the
table, its created_at dominates every row, and the 200 response serializes
its counts and timestamp. -/
theorem claim_C6_list_latest_snapshot (s : Store) (h : s.snapshots ≠ []) :
    ∃ snap, latestSnapshot s.snapshots = some snap ∧ snap ∈ s.snapshots ∧
      (∀ x ∈ s.snapshots, x.created_at ≤ snap.created_at) ∧
      (Deps.List noListFaults s).response =
        ⟨200, "application/json", listBody snap.counts (rfc3339 snap.created_at)⟩ := by
  obtain ⟨snap, hsnap⟩ := latestSnapshot_isSome s.snapshots h
  refine ⟨snap, hsnap, latestSnapshot_mem _ _ hsnap, latestSnapshot_max _ _ hsnap, ?_⟩
  simp only [Deps.List, noListFaults, hsnap]

/-- Store used to exercise the C6 statement on a concrete multi-snapshot
table. -/
def demoStore : Store := { freshStore with snapshots := [⟨2, 5⟩, ⟨7, 9⟩] }

theorem claim_C6_witness :
    ∃ snap, latestSnapshot demoStore.snapshots = some snap ∧ snap ∈ demoStore.snapshots ∧
      (∀ x ∈ demoStore.snapshots, x.created_at ≤ snap.created_at) ∧
      (Deps.List noListFaults demoStore).response =
        ⟨200, "application/json", listBody snap.counts (rfc3339 snap.created_at)⟩ :=
  claim_C6_list_latest_snapshot demoStore (by decide)

/-- C7: across any interleaving of write transactions and the aggregation
runs they spawn (any of which may fail at any step), the counter value a
read reports never decreases: a read taken after further steps reports at
least as much as an earlier read. -/
theorem claim_C7_counter_monotone (ops1 ops2 : List Op) :
    readCounter (run freshSys ops1) ≤ readCounter (run freshSys (ops1 ++ ops2)) := by
  have hsplit : run freshSys (ops1 ++ ops2) = run (run freshSys ops1) ops2 := by
    unfold run
    rw [List.foldl_append]
  rw [hsplit]
  exact (inv_run (run freshSys ops1) ops2 (inv_run freshSys ops1 inv_fresh).1).2

/-- C8: a fully successful write path spawns the aggregation and answers
200 with the success body, and the response of the write handler never
depends on how the spawned aggregation fares. -/
theorem claim_C8_add_fire_and_forget (g g2 : AggregateFaults) (s : Store)
    (tAdd tAgg : Nat) (f : AddFaults) :
    (Deps.addThenAggregate noAddFaults g s tAdd tAgg).1 =
        ⟨200, "application/json", successBody⟩ ∧
      (Deps.Add noAddFaults s tAdd).triggeredAggregate = true ∧
      (Deps.addThenAggregate f g s tAdd tAgg).1 =
        (Deps.addThenAggregate f g2 s tAdd tAgg).1 :=
  ⟨rfl, rfl, rfl⟩

/-- C9 counterexample: on the query-failure exit path of the aggregation,
the transaction has been begun but the function returns without issuing
Commit or Rollback, so the claim that every exit path resolves the
transaction is false on the code. -/
theorem claim_C9_counterexample :
    (Deps.CreateAggregate aggregateQueryFault freshStore 0).ledger.txBegun = true ∧
      (Deps.CreateAggregate aggregateQueryFault freshStore 0).ledger.txResolved = false :=
  ⟨rfl, rfl⟩

lemma migrate_ledger (fm : MigrateFaults) (s : Store) :
    (Deps.Migrate fm s).ledger.connBalanced = true ∧
      ((!(Deps.Migrate fm s).ledger.txBegun) || (Deps.Migrate fm s).ledger.txResolved) = true := by
  rcases fm with ⟨a, b, c, d, e, f⟩
  cases a <;> cases b <;> cases c <;> cases d <;> cases e <;> cases f <;> exact ⟨rfl, rfl⟩

lemma add_ledger (fa : AddFaults) (s : Store) (t : Nat) :
    (Deps.Add fa s t).ledger.connBalanced = true ∧
      ((!(Deps.Add fa s t).ledger.txBegun) || (Deps.Add fa s t).ledger.txResolved) = true := by
  rcases fa with ⟨a, b, c, d⟩
  cases a <;> cases b <;> cases c <;> cases d <;> exact ⟨rfl, rfl⟩

lemma list_ledger (fl : ListFaults) (s : Store) :
    (Deps.List fl s).ledger.connBalanced = true ∧
      ((!(Deps.List fl s).ledger.txBegun) || (Deps.List fl s).ledger.txResolved) = true := by
  rcases fl with ⟨a, b⟩
  cases a <;> cases b <;>
    first
      | exact ⟨rfl, rfl⟩
      | (cases hl : latestSnapshot s.snapshots <;> simp [Deps.List, hl])

lemma aggregate_ledger (g : AggregateFaults) (s : Store) (u : Nat) :
    (Deps.CreateAggregate g s u).ledger.connBalanced = true ∧
      ((!(Deps.CreateAggregate { g with queryErr := none, scanErr := none } s u).ledger.txBegun) ||
        (Deps.CreateAggregate { g with queryErr := none, scanErr := none } s u).ledger.txResolved)
        = true := by
  rcases g with ⟨a, b, c, d, e, f⟩
  cases a <;> cases b <;> cases c <;> cases d <;> cases e <;> cases f <;> exact ⟨rfl, rfl⟩

/-- C9 amended: every operation releases its dedicated connection on every
exit path, and every begun transaction is resolved (committed or rolled
back) before returning on every exit path of Migrate, Add and List — and
of CreateAggregate as well, except on its event-query and row-scan failure
paths, where the function returns with the transaction unresolved and only
the deferred connection close cleans it up. -/
theorem claim_C9_amended_release (fm : MigrateFaults) (fa : AddFaults)
    (fl : ListFaults) (g : AggregateFaults) (s : Store) (t u : Nat) :
    (Deps.Migrate fm s).ledger.connBalanced = true ∧
      ((!(Deps.Migrate fm s).ledger.txBegun) || (Deps.Migrate fm s).ledger.txResolved) = true ∧
      (Deps.Add fa s t).ledger.connBalanced = true ∧
      ((!(Deps.Add fa s t).ledger.txBegun) || (Deps.Add fa s t).ledger.txResolved) = true ∧
      (Deps.List fl s).ledger.connBalanced = true ∧
      ((!(Deps.List fl s).ledger.txBegun) || (Deps.List fl s).ledger.txResolved) = true ∧
      (Deps.CreateAggregate g s u).ledger.connBalanced = true ∧
      ((!(Deps.CreateAggregate { g with queryErr := none, scanErr := none } s u).ledger.txBegun) ||
        (Deps.CreateAggregate { g with queryErr := none, scanErr := none } s u).ledger.txResolved)
        = true :=
  ⟨(migrate_ledger fm s).1, (migrate_ledger fm s).2,
   (add_ledger fa s t).1, (add_ledger fa s t).2,
   (list_ledger fl s).1, (list_ledger fl s).2,
   (aggregate_ledger g s u).1, (aggregate_ledger g s u).2⟩

/-- C10: the read path is read-only — for every fault pattern and store it
returns the store exactly as it found it. -/
theorem claim_C10_list_readonly (f : ListFaults) (s : Store) :
    (Deps.List f s).store = s := by
  rcases f with ⟨cf, qf⟩
  cases cf <;> cases qf <;>
    first
      | rfl
      | (cases hl : latestSnapshot s.snapshots <;> simp [Deps.List, hl])
